import Mathlib

/-!
Verification of the document assembly and cross-reference resolution engine
of gdscript-docs-maker (modules command_line.py and convert_to_markdown.py).

The source under verification is convert_to_markdown.py together with
command_line.py.  The sibling modules gdscript_objects.py and
make_markdown.py are not part of the provided sources; every definition
drawn from them is marked "Modelled from the spec" and follows the
specification's description of that collaborator.

Machine strings are Lean `String`s; the relevant Python builtins
(str.split, str.replace with count 1, str.title) are given explicit
executable models over `List Char`.
-/

/-! ## String utilities (models of the Python builtins used by the source) -/

/-- Models Python `sep.join(lines)` for a list of strings. -/
def joinSep (sep : String) : List String → String
  | [] => ""
  | [x] => x
  | x :: xs => x ++ sep ++ joinSep sep xs

/-- Models Python `str.split(sep)` for a single-character separator:
splitting the empty string yields `[""]`, and adjacent separators produce
empty fields. -/
def splitCharsOn (sep : Char) : List Char → List (List Char)
  | [] => [[]]
  | c :: cs =>
    if c = sep then [] :: splitCharsOn sep cs
    else
      match splitCharsOn sep cs with
      | g :: gs => (c :: g) :: gs
      | [] => [[c]]

/-- Models `gdscript.jekyll_path.split("/")` from the source. -/
def splitPath (s : String) : List String := (splitCharsOn '/' s.data).map String.mk

/-- Consume `pat` from the front of a character list, returning the rest on
success. -/
def dropStart : List Char → List Char → Option (List Char)
  | [], rest => some rest
  | _ :: _, [] => none
  | p :: ps, c :: cs => if p = c then dropStart ps cs else none

/-- Replace the first occurrence of `pat` by `rep`, scanning left to right;
if `pat` does not occur the list is unchanged. -/
def replaceFirstChars (pat rep : List Char) : List Char → List Char
  | [] => []
  | c :: cs =>
    match dropStart pat (c :: cs) with
    | some rest => rep ++ rest
    | none => c :: replaceFirstChars pat rep cs

/-- Models Python `s.replace(pat, rep, 1)` from line 310 of the source. -/
def replaceFirst (s pat rep : String) : String :=
  String.mk (replaceFirstChars pat.data rep.data s.data)

/-- ASCII uppercase conversion of a single letter (Python `str.title` acts
per cased character; the source only feeds it ASCII path segments). -/
def toUpperAscii (c : Char) : Char :=
  if 97 ≤ c.toNat ∧ c.toNat ≤ 122 then Char.ofNat (c.toNat - 32) else c

/-- ASCII lowercase conversion of a single letter. -/
def toLowerAscii (c : Char) : Char :=
  if 65 ≤ c.toNat ∧ c.toNat ≤ 90 then Char.ofNat (c.toNat + 32) else c

/-- ASCII letter test. -/
def isAsciiLetter (c : Char) : Bool :=
  (65 ≤ c.toNat && c.toNat ≤ 90) || (97 ≤ c.toNat && c.toNat ≤ 122)

/-- Worker for `pythonTitle`: the Boolean argument records whether the
previous character was cased. -/
def pythonTitleGo : Bool → List Char → List Char
  | _, [] => []
  | prevCased, c :: cs =>
    let c2 := if isAsciiLetter c then (if prevCased then toLowerAscii c else toUpperAscii c) else c
    c2 :: pythonTitleGo (isAsciiLetter c) cs

/-- Models Python `str.title()` over ASCII input: the first letter of every
maximal letter run is uppercased and the others lowercased. -/
def pythonTitle (s : String) : String := String.mk (pythonTitleGo false s.data)

/-! ## Markdown renderer helpers

Modelled from the spec: the module make_markdown.py is absent from the
provided sources; section 4.4 of the specification describes these pure
text builders (headings, bold spans, code fences, links, table rows, a
front-matter block and a blank-line wrapper). -/

/-- Modelled from the spec: link construction from display text and target. -/
def make_link (text target : String) : String := "[" ++ text ++ "](" ++ target ++ ")"

/-- Modelled from the spec: bold inline span. -/
def make_bold (text : String) : String := "**" ++ text ++ "**"

/-- Modelled from the spec: fenced code block. -/
def make_code_block (code : String) : String := "```gdscript\n" ++ code ++ "\n```"

/-- Modelled from the spec: a heading line at the given level, followed by a
blank line. -/
def make_heading (line : String) (level : Nat) : List String :=
  [String.mk (List.replicate level '#') ++ " " ++ line, ""]

/-- Modelled from the spec: a table row from an ordered list of cells. -/
def make_table_row (cells : List String) : String :=
  "| " ++ joinSep " | " cells ++ " |"

/-- Modelled from the spec: a table header row plus its separator row. -/
def make_table_header (cells : List String) : List String :=
  [make_table_row cells, make_table_row (cells.map (fun _ => "------"))]

/-- Modelled from the spec: surround text with an HTML tag pair. -/
def surround_with_html (text tag : String) : String :=
  "<" ++ tag ++ ">" ++ text ++ "</" ++ tag ++ ">"

/-- Modelled from the spec: wrap a list block with blank lines before and
after. -/
def wrap_in_newlines (lines : List String) : List String := [""] ++ lines ++ [""]

/-- Modelled from the spec: a front-matter block wrapping a list of
key-value lines. -/
def jekyll (lines : List String) : String :=
  "---\n" ++ joinSep "\n" lines ++ "\n---\n"

/-- Modelled from the spec: a named Document, an ordered sequence of text
lines keyed by a name usable as a file stem. -/
structure MarkdownDocument where
  name : String
  content : List String
deriving DecidableEq

/-- Modelled from the spec: `MarkdownSection(title, level, content).as_text()`
renders a heading followed by the section's content lines; each call site in
the source guards against empty content before constructing a section. -/
def mkSection (title : String) (level : Nat) (content : List String) : List String :=
  make_heading title level ++ content

/-! ## Symbol model and class index

Modelled from the spec: the module gdscript_objects.py is absent from the
provided sources; section 3 of the specification gives the data model and
section 4.1 the class-index contract. -/

/-- Modelled from the spec: a named, documented member (property, function,
signal or enum) with a signature, a display heading and its variant-specific
unique attributes rendered as markdown lines. -/
structure Element where
  name : String
  type_name : String
  signature : String
  description : String
  unique_attributes : List String
  heading : String
deriving DecidableEq

/-- Modelled from the spec: the two-column summary (Type, Name) of a member. -/
def Element.summarize (e : Element) : List String := [e.type_name, e.name]

/-- Modelled from the spec: a GDScript class record with its ordered member
lists, free-text description, metadata tags and derived navigation path. -/
structure GDScriptClass where
  name : String
  extends_class : Option String
  category : String
  description : String
  jekyll_path : String
  members : List Element
  functions : List Element
  signals : List Element
  enums : List Element
  tags : List String
deriving DecidableEq

/-- Modelled from the spec: project name, version and top-level description,
used only for the flat-mode index document. -/
structure ProjectInfo where
  name : String
  version : String
  description : String
deriving DecidableEq

/-- Modelled from the spec: the class index maps each class name to the set
of its member names, for reference validation.  It is built once, from the
classes as constructed (before any renaming). -/
def class_index (classes : List GDScriptClass) : List (String × List String) :=
  classes.map (fun c =>
    (c.name, (c.members ++ c.functions ++ c.signals ++ c.enums).map Element.name))

/-- Association-list lookup, the model of Python dict indexing on the class
index; `none` models a raised `KeyError`. -/
def lookupIndex : List (String × List String) → String → Option (List String)
  | [], _ => none
  | (k, v) :: rest, n => if k = n then some v else lookupIndex rest n

/-- Modelled from the spec: walk the `extends` pointers through the index
until a class with no parent or an unresolved ancestor name is reached.  The
fuel argument bounds the walk; with fuel exceeding the number of classes it
is complete for acyclic data. -/
def extends_walk (classes : List GDScriptClass) : Nat → Option String → List String
  | 0, _ => []
  | _ + 1, none => []
  | fuel + 1, some e =>
    e :: (match classes.find? (fun x => x.name = e) with
          | some c => extends_walk classes fuel c.extends_class
          | none => [])

/-- Modelled from the spec: the ancestor chain of a class, starting at its
own parent name. -/
def get_extends_tree (classes : List GDScriptClass) (gdscript : GDScriptClass) : List String :=
  extends_walk classes (classes.length + 1) gdscript.extends_class

/-- First-seen-order deduplication of a list of category names. -/
def dedupFirstSeen (l : List String) : List String :=
  l.foldl (fun acc c => if c ∈ acc then acc else acc ++ [c]) []

/-- Modelled from the spec: classes grouped by category, categories in
first-seen order and classes keeping their input order within a group. -/
def get_grouped_by_category (classes : List GDScriptClass) : List (List GDScriptClass) :=
  (dedupFirstSeen (classes.map GDScriptClass.category)).map
    (fun cat => classes.filter (fun c => c.category = cat))

/-! ## Command-line model (from command_line.py) -/

/-- The output-format enumeration from command_line.py (the source spells
the flat format `MARDKOWN`). -/
inductive OutputFormats where
  | MARDKOWN
  | JEKYLL
deriving DecidableEq

/-- The two fields of the parsed argument namespace that
convert_to_markdown.py reads. -/
structure Arguments where
  format : OutputFormats
  make_index : Bool
deriving DecidableEq

/-! ## Reference resolver (from `_replace_references`, lines 255-312) -/

/-- The `[A-Z]` character class of the token regex. -/
def isUpperAZ (c : Char) : Bool := 65 ≤ c.toNat && c.toNat ≤ 90

/-- The lowercase part of the `[a-z0-9_]` class. -/
def isLowerAZ (c : Char) : Bool := 97 ≤ c.toNat && c.toNat ≤ 122

/-- The digit part of the character classes. -/
def isDigitC (c : Char) : Bool := 48 ≤ c.toNat && c.toNat ≤ 57

/-- The `[a-zA-Z0-9]` class (tail of a class name in the token regex). -/
def isAlnumAscii (c : Char) : Bool := isUpperAZ c || isLowerAZ c || isDigitC c

/-- The `[a-z0-9_]` class (symbol part of the token regex). -/
def isSymbolChar (c : Char) : Bool := isLowerAZ c || isDigitC c || c = '_'

/-- Group 1 of the token regex: an optional `[A-Z][a-zA-Z0-9]*` class name,
matched maximally, together with the remaining input. -/
def parseG1 : List Char → Option String × List Char
  | [] => (none, [])
  | d :: ds =>
    if isUpperAZ d then
      (some (String.mk (d :: ds.takeWhile isAlnumAscii)), ds.dropWhile isAlnumAscii)
    else (none, d :: ds)

/-- The optional dot of the token regex. -/
def parseDot : List Char → List Char
  | [] => []
  | e :: es => if e = '.' then es else e :: es

/-- Group 2 of the token regex (an optional maximal `[a-z0-9_]+` run)
followed by the mandatory closing bracket. -/
def parseTail (g1 : Option String) (r2 : List Char) :
    Option (Option String × Option String) :=
  let g2run := r2.takeWhile isSymbolChar
  let g2 : Option String := if g2run = [] then none else some (String.mk g2run)
  match r2.dropWhile isSymbolChar with
  | f :: _ => if f = ']' then some (g1, g2) else none
  | [] => none

/-- Models `re.match(r"\[([A-Z][a-zA-Z0-9]*)?\.?([a-z0-9_]+)?\]", reference)`
(line 269): an anchored prefix match returning the two groups.  Greedy
matching with backtracking coincides with maximal munch here because the
group character classes are disjoint at every decision point, so each
optional piece is committed by looking at the next character. -/
def parseRef : List Char → Option (Option String × Option String)
  | c :: r0 =>
    if c = '[' then
      let p1 := parseG1 r0
      parseTail p1.1 (parseDot p1.2)
    else none
  | [] => none

/-- The part of the current line scanned by `.` (which never matches a
newline). -/
def lineTake (l : List Char) : List Char := l.takeWhile (fun c => c != '\n')

/-- Index of the first closing bracket of a reversed line. -/
def revFindClose : List Char → Option Nat
  | [] => none
  | c :: cs => if c = ']' then some 0 else (revFindClose cs).map (· + 1)

/-- Position of the last `]` in `l` provided at least one character comes
before it, as required by the greedy `.+` of the findall pattern. -/
def lastCloseIdx (l : List Char) : Option Nat :=
  match revFindClose l.reverse with
  | some k => if 1 ≤ l.length - 1 - k then some (l.length - 1 - k) else none
  | none => none

/-- Models `re.findall(r"\[.+\]", description)` (line 266): scan left to
right; at each `[`, the greedy `.+` extends to the last `]` on the current
line (with at least one character in between), and scanning resumes after
the match.  The fuel is initialised to the text length, which each step
strictly decreases, so it never runs out. -/
def findRefsGo : Nat → List Char → List (List Char)
  | 0, _ => []
  | _ + 1, [] => []
  | fuel + 1, c :: rest =>
    if c = '[' then
      match lastCloseIdx (lineTake rest) with
      | some j => ('[' :: rest.take (j + 1)) :: findRefsGo fuel (rest.drop (j + 1))
      | none => findRefsGo fuel rest
    else findRefsGo fuel rest

/-- All findall matches of the reference pattern in a description. -/
def findRefs (s : String) : List String := (findRefsGo s.data.length s.data).map String.mk

/-- The class-not-found warning (line 278: the message is concatenated with
the tail without a separating space). -/
def ERROR_CLASS (x : String) : String :=
  "Class " ++ x ++ " not found in the class index." ++ "The name might be incorrect."

/-- The symbol-not-found warning (lines 284 and 291: the member message
already ends with the tail sentence, and the tail is appended again). -/
def ERROR_MEMBER (m c : String) : String :=
  "Symbol " ++ m ++ " not found in " ++ c ++ ". The name might be incorrect." ++
    "The name might be incorrect."

/-- Underscore-to-dash conversion of the anchor fragment (line 307). -/
def dashify (s : String) : String :=
  String.mk (s.data.map (fun c => if c = '_' then '-' else c))

/-- The display text and target path built on lines 297-309: display is
`ClassName`, `symbol` or `ClassName.symbol`; the path is the class name,
then `/` when both parts are present, then `#` and the dashed symbol. -/
def refLink : Option String → Option String → String
  | class_name, member =>
    let display :=
      (match class_name with | some c => c | none => "") ++
      (match class_name, member with | some _, some _ => "." | _, _ => "") ++
      (match member with | some m => m | none => "")
    let path :=
      (match class_name with | some c => c | none => "") ++
      (match class_name, member with | some _, some _ => "/" | _, _ => "") ++
      (match member with | some m => "#" ++ dashify m | none => "")
    make_link display path

/-- One iteration of the loop body of `_replace_references` (lines 267-310)
acting on the pair of the running description and the warnings emitted so
far; `none` models the `KeyError` raised on line 290 when the current class
is absent from the index. -/
def resolveRef (index : List (String × List String)) (currentName : String)
    (st : String × List String) (reference : String) : Option (String × List String) :=
  match parseRef reference.data with
  | none => some st
  | some (class_name, member) =>
    match class_name, member with
    | some cn, some m =>
      match lookupIndex index cn with
      | none => some (st.1, st.2 ++ [ERROR_CLASS cn])
      | some mems =>
        if m ∈ mems then
          some (replaceFirst st.1 reference (refLink (some cn) (some m)), st.2)
        else some (st.1, st.2 ++ [ERROR_MEMBER m cn])
    | some cn, none =>
      match lookupIndex index cn with
      | none => some (st.1, st.2 ++ [ERROR_CLASS cn])
      | some _ => some (replaceFirst st.1 reference (refLink (some cn) none), st.2)
    | none, some m =>
      match lookupIndex index currentName with
      | none => none
      | some mems =>
        if m ∈ mems then
          some (replaceFirst st.1 reference (refLink none (some m)), st.2)
        else some (st.1, st.2 ++ [ERROR_MEMBER m currentName])
    | none, none => some (replaceFirst st.1 reference (refLink none none), st.2)

/-- `_replace_references` over an explicit index: the findall matches are
computed once from the original description, then folded through the loop
body.  The result pairs the rewritten description with the warnings sent to
the logger, and `none` models an uncaught `KeyError`. -/
def replaceRefs (index : List (String × List String)) (currentName description : String) :
    Option (String × List String) :=
  (findRefs description).foldlM (resolveRef index currentName) (description, [])

/-- `_replace_references(classes, gdscript, description)` (line 255). -/
def replace_references (classes : List GDScriptClass) (gdscript : GDScriptClass)
    (description : String) : Option (String × List String) :=
  replaceRefs (class_index classes) gdscript.name description

/-- The rewritten text alone, as used by the composer (the warnings go to
the logger side channel). -/
def replaceRefsText (classes : List GDScriptClass) (gdscript : GDScriptClass)
    (description : String) : Option String :=
  (replace_references classes gdscript description).map Prod.fst

/-! ## Document composer (from `_as_markdown` and helpers, lines 75-252) -/

/-- The one-time identity substitution of lines 102-103: a class named
`Main` is renamed to `Rakugo` before composition. -/
def renameMain (c : GDScriptClass) : GDScriptClass :=
  if c.name = "Main" then { c with name := "Rakugo" } else c

/-- The display name of lines 105-107: the class name with an `(abstract)`
marker in small HTML when the metadata tags contain `abstract`. -/
def display_name (g : GDScriptClass) : String :=
  if g.tags.contains "abstract" then
    g.name ++ " " ++ surround_with_html "(abstract)" "small"
  else g.name

/-- The parent category label of lines 113-123: the second-to-last path
segment when the path has at least three segments, with the hard-coded
`gui` to `GUI` exception and title-casing otherwise. -/
def parent_label (g : GDScriptClass) : String :=
  let paths := splitPath g.jekyll_path
  let parent := if 3 ≤ paths.length then paths.getD (paths.length - 2) "" else ""
  if parent = "gui" then "GUI" else pythonTitle parent

/-- The Jekyll front matter of lines 111-137: a class named `Rakugo` (after
the rename) receives the fixed title, permalink and top navigation order;
every other class receives the path-derived permalink and parent category.
In the flat markdown format no front matter is produced. -/
def front_matter (g : GDScriptClass) (arguments : Arguments) : List String :=
  if arguments.format = OutputFormats.JEKYLL then
    if g.name = "Rakugo" then
      [jekyll ["title: " ++ g.name, "permalink: /rakugo", "nav_order: 1"]]
    else
      [jekyll ["title: " ++ g.name, "permalink: " ++ g.jekyll_path,
               "parent: " ++ parent_label g]]
  else []

/-- The level-1 heading of lines 139-140, emitted only in the flat format. -/
def heading_part (g : GDScriptClass) (arguments : Arguments) : List String :=
  if arguments.format = OutputFormats.MARDKOWN then make_heading (display_name g) 1 else []

/-- The inheritance line of lines 142-145: every entry of the ancestor
chain, resolved or not, is rendered as a link. -/
def extends_part (classes : List GDScriptClass) (g : GDScriptClass) : List String :=
  match g.extends_class with
  | some _ =>
    [make_bold "Extends:" ++ " " ++
      joinSep " < " ((get_extends_tree classes g).map (fun e => make_link e e))]
  | none => []

/-- `_write_summary` (lines 176-183): empty member lists yield no lines;
otherwise a Type/Name table header followed by one row per member. -/
def write_summary (element_list : List Element) : List String :=
  if element_list = [] then []
  else make_table_header ["Type", "Name"] ++
    element_list.map (fun e => make_table_row e.summarize)

/-- The two summary sections of lines 150-154, each omitted when its member
list is empty. -/
def summary_sections (g : GDScriptClass) : List String :=
  (let s := write_summary g.members
   if s = [] then [] else mkSection "Properties" 2 s) ++
  (let s := write_summary g.functions
   if s = [] then [] else mkSection "Functions" 2 s)

/-- `_write_signals` (lines 208-219): one bullet per signal with its
resolved description, wrapped in blank lines. -/
def write_signals (classes : List GDScriptClass) (g : GDScriptClass) :
    Option (List String) := do
  let lines ← g.signals.mapM (fun s => do
    let d ← replaceRefsText classes g s.description
    pure ("- " ++ s.signature ++ ": " ++ d))
  pure (wrap_in_newlines lines)

/-- The Signals section of lines 156-159, omitted when there are no
signals. -/
def signals_section (classes : List GDScriptClass) (g : GDScriptClass) :
    Option (List String) :=
  if g.signals = [] then some []
  else (write_signals classes g).map (mkSection "Signals" 2)

/-- `_write` (lines 186-205): per member, a level-3 heading, a code block of
the signature, the unique attributes, a blank line and the resolved
description. -/
def write_elements (classes : List GDScriptClass) (g : GDScriptClass)
    (elems : List Element) : Option (List String) := do
  let parts ← elems.mapM (fun e => do
    let d ← replaceRefsText classes g e.description
    pure (make_heading e.heading 3 ++ [make_code_block e.signature, ""] ++
          e.unique_attributes ++ ["", d]))
  pure parts.flatten

/-- One detailed section of lines 161-171, omitted when the member list is
empty. -/
def detail_section (classes : List GDScriptClass) (g : GDScriptClass)
    (elems : List Element) (title : String) : Option (List String) :=
  if elems = [] then some []
  else (write_elements classes g elems).map (mkSection title 2)

/-- `_as_markdown` (lines 93-173): rename a `Main` class, then assemble
front matter or heading, the inheritance line, the Description section, the
summary tables, the Signals section and the three detailed sections, in the
source's order.  `none` models an uncaught resolver `KeyError`. -/
def as_markdown (classes : List GDScriptClass) (gdscript : GDScriptClass)
    (arguments : Arguments) : Option MarkdownDocument := do
  let g := renameMain gdscript
  let desc ← replaceRefsText classes g g.description
  let sigs ← signals_section classes g
  let enumsSec ← detail_section classes g g.enums "Enumerations"
  let propDescSec ← detail_section classes g g.members "Property Descriptions"
  let funDescSec ← detail_section classes g g.functions "Method Descriptions"
  pure (MarkdownDocument.mk g.name
    (front_matter g arguments ++ heading_part g arguments ++ extends_part classes g ++
     mkSection "Description" 2 [desc] ++ summary_sections g ++ sigs ++
     enumsSec ++ propDescSec ++ funDescSec))

/-- The table of contents of one category group (`_write_table_of_contents`
body, lines 238-250): a bold category bullet and indented class links when
the category is nonempty, plain class links otherwise. -/
def toc_group (group : List GDScriptClass) : List String :=
  match group with
  | [] => []
  | first :: _ =>
    if first.category ≠ "" then
      ("- " ++ make_bold first.category) ::
        group.map (fun c => "  " ++ "- " ++ make_link c.name c.name)
    else group.map (fun c => "" ++ "- " ++ make_link c.name c.name)

/-- `_write_table_of_contents` (lines 233-252). -/
def write_table_of_contents (classes : List GDScriptClass) : List String :=
  ((get_grouped_by_category classes).map toc_group).flatten

/-- `_write_index_page` (lines 222-230): the project title with its version
in small HTML, the project description, and the Contents section. -/
def write_index_page (classes : List GDScriptClass) (info : ProjectInfo) :
    MarkdownDocument :=
  MarkdownDocument.mk "index"
    (mkSection (info.name ++ " (" ++ surround_with_html info.version "small" ++ ")") 1
       [info.description] ++
     mkSection "Contents" 2 (write_table_of_contents classes))

/-- `_add_index_dict` (lines 75-91) restricted to the dictionary keys: only
in the Jekyll format with index generation requested, every path segment of
the class's navigation path other than the empty segment and segments equal
to the path's last segment is inserted once, in first-insertion order.  The
values of the dictionary are never read by the section loop, so they are not
modelled. -/
def add_index_keys (arguments : Arguments) (keys : List String)
    (gdscript : GDScriptClass) : List String :=
  if arguments.format = OutputFormats.JEKYLL ∧ arguments.make_index = true then
    let paths := splitPath gdscript.jekyll_path
    paths.foldl
      (fun ks p =>
        if p = "" ∨ p = paths.getLastD "" then ks
        else if p ∈ ks then ks else ks ++ [p])
      keys
  else keys

/-- The accumulated index dictionary keys over all classes, in insertion
order (Python dict iteration order). -/
def buildIndexKeys (classes : List GDScriptClass) (arguments : Arguments) : List String :=
  classes.foldl (add_index_keys arguments) []

/-- The front-matter-only section document built for one key by the loop of
lines 53-71. -/
def section_doc (parent : String) : MarkdownDocument :=
  MarkdownDocument.mk parent
    [jekyll ["title: " ++ pythonTitle parent, "permalink: /" ++ parent,
             "nav_order: 2", "has_children: true", "has_toc: true"]]

/-- The navigation section documents: one per index key, skipping the keys
`main` and the empty string (lines 53-55). -/
def section_docs (classes : List GDScriptClass) (arguments : Arguments) :
    List MarkdownDocument :=
  ((buildIndexKeys classes arguments).filter
    (fun p => ¬(p = "main" ∨ p = ""))).map section_doc

/-- `convert_to_markdown` (lines 35-73): the flat-format index page when
requested, then one document per class in input order, then the navigation
section documents. -/
def convert_to_markdown (classes : List GDScriptClass) (arguments : Arguments)
    (info : ProjectInfo) : Option (List MarkdownDocument) := do
  let docs ← classes.mapM (fun entry => as_markdown classes entry arguments)
  let indexPart :=
    if arguments.make_index = true ∧ arguments.format ≠ OutputFormats.JEKYLL then
      [write_index_page classes info]
    else []
  pure (indexPart ++ docs ++ section_docs classes arguments)

/-! ## Infrastructure lemmas for the resolver -/

/-- Two characters differ when a Boolean character test separates them. -/
theorem char_ne {f : Char → Bool} {c d : Char} (h : f c = true) (hd : f d = false) :
    c ≠ d := fun he => by rw [he, hd] at h; exact Bool.noConfusion h

theorem str_append_assoc (a b c : String) : a ++ b ++ c = a ++ (b ++ c) := by
  apply String.ext
  simp [String.data_append]

theorem string_mk_data (s : String) : String.mk s.data = s := by
  cases s
  rfl

theorem dropStart_refl (l : List Char) : dropStart l l = some [] := by
  induction l with
  | nil => rfl
  | cons c cs ih => simp [dropStart, ih]

/-- Replacing the whole string by `rep` when the pattern is the string
itself. -/
theorem replaceFirst_self (s rep : String) (h : s.data ≠ []) :
    replaceFirst s s rep = rep := by
  unfold replaceFirst
  match hd : s.data with
  | [] => exact absurd hd h
  | c :: cs =>
    rw [replaceFirstChars]
    rw [show (c :: cs) = s.data from hd.symm, dropStart_refl]
    simp [string_mk_data]

/-- A symbol character is never an uppercase class-name head. -/
theorem sym_not_upper {c : Char} (h : isSymbolChar c = true) : isUpperAZ c = false := by
  by_contra hne
  have hu : isUpperAZ c = true := by
    cases hx : isUpperAZ c
    · exact absurd hx hne
    · rfl
  simp only [isSymbolChar, isLowerAZ, isDigitC, Bool.or_eq_true, Bool.and_eq_true,
    decide_eq_true_eq] at h
  simp only [isUpperAZ, Bool.and_eq_true, decide_eq_true_eq] at hu
  rcases h with (h | h) | h
  · omega
  · omega
  · subst h; exact absurd hu (by decide)

/-- Validity of a class-name string for the token regex. -/
def validClassStr (s : String) : Bool :=
  match s.data with
  | c :: cs => isUpperAZ c && cs.all isAlnumAscii
  | [] => false

/-- Validity of a symbol string for the token regex. -/
def validSymbolStr (s : String) : Bool :=
  !s.data.isEmpty && s.data.all isSymbolChar

theorem alnum_plain {c : Char} (h : isAlnumAscii c = true) : c ≠ ']' ∧ c ≠ '\n' :=
  ⟨char_ne h (by decide), char_ne h (by decide)⟩

theorem sym_plain {c : Char} (h : isSymbolChar c = true) : c ≠ ']' ∧ c ≠ '\n' :=
  ⟨char_ne h (by decide), char_ne h (by decide)⟩

/-- The findall model returns exactly one match on a text that is a single
bracketed token whose interior has no closing bracket and no newline. -/
theorem findRefsGo_single (mid : List Char) (hne : mid ≠ [])
    (hmid : ∀ c ∈ mid, c ≠ ']' ∧ c ≠ '\n') :
    findRefsGo (mid.length + 2) ('[' :: (mid ++ [']'])) = [('[' :: (mid ++ [']']))] := by
  have hline : lineTake (mid ++ [']']) = mid ++ [']'] := by
    unfold lineTake
    rw [List.takeWhile_append_of_pos (by
      intro a ha
      exact bne_iff_ne.mpr (hmid a ha).2)]
    simp
  have hfind : revFindClose ((mid ++ [']']).reverse) = some 0 := by
    have hrev : (mid ++ [']']).reverse = ']' :: mid.reverse := by simp
    rw [hrev, revFindClose]
    simp
  have hlen : (mid ++ [']']).length = mid.length + 1 := by simp
  have hpos : 1 ≤ (mid ++ [']']).length - 1 - 0 := by
    rw [hlen]
    have : 0 < mid.length := List.length_pos.mpr hne
    omega
  have hidx : lastCloseIdx (lineTake (mid ++ [']'])) = some mid.length := by
    rw [hline]
    unfold lastCloseIdx
    rw [hfind]
    show (if 1 ≤ (mid ++ [']']).length - 1 - 0
          then some ((mid ++ [']']).length - 1 - 0) else none) = some mid.length
    rw [if_pos hpos, hlen]
    simp
  have htake : (mid ++ [']']).take (mid.length + 1) = mid ++ [']'] := by
    rw [← hlen, List.take_length]
  have hdrop : (mid ++ [']']).drop (mid.length + 1) = [] := by
    rw [← hlen, List.drop_length]
  have hfuel : mid.length + 2 = mid.length + 1 + 1 := rfl
  rw [hfuel, findRefsGo, if_pos rfl, hidx]
  show ('[' :: (mid ++ [']']).take (mid.length + 1)) ::
      findRefsGo (mid.length + 1) ((mid ++ [']']).drop (mid.length + 1)) =
      ['[' :: (mid ++ [']'])]
  rw [htake, hdrop]
  rfl

theorem takeWhile_stop {p : Char → Bool} {a : Char} (l : List Char) (ha : p a = false) :
    (a :: l).takeWhile p = [] := by
  simp [List.takeWhile_cons, ha]

theorem dropWhile_stop {p : Char → Bool} {a : Char} (l : List Char) (ha : p a = false) :
    (a :: l).dropWhile p = a :: l := by
  simp [List.dropWhile_cons, ha]

theorem validClassStr_elim {C : String} (hC : validClassStr C = true) :
    ∃ c0 cs, C.data = c0 :: cs ∧ isUpperAZ c0 = true ∧ cs.all isAlnumAscii = true := by
  unfold validClassStr at hC
  cases hCd : C.data with
  | nil => rw [hCd] at hC; exact absurd hC (by simp)
  | cons c0 cs =>
    rw [hCd] at hC
    simp only [Bool.and_eq_true] at hC
    exact ⟨c0, cs, rfl, hC.1, hC.2⟩

theorem validSymbolStr_elim {m : String} (hm : validSymbolStr m = true) :
    m.data ≠ [] ∧ ∀ a ∈ m.data, isSymbolChar a = true := by
  unfold validSymbolStr at hm
  simp only [Bool.and_eq_true, Bool.not_eq_true', List.all_eq_true] at hm
  refine ⟨?_, hm.2⟩
  intro h
  rw [h] at hm
  exact absurd hm.1 (by decide)

theorem token_data (s : String) : ("[" ++ s ++ "]").data = '[' :: (s.data ++ [']']) := by
  rw [String.data_append, String.data_append]
  rfl

/-- The findall model on a description that is exactly one bracketed token. -/
theorem findRefs_token (tok : String) (mid : List Char)
    (h : tok.data = '[' :: (mid ++ [']'])) (hne : mid ≠ [])
    (hmid : ∀ c ∈ mid, c ≠ ']' ∧ c ≠ '\n') : findRefs tok = [tok] := by
  unfold findRefs
  rw [h]
  have hlen : ('[' :: (mid ++ [']'])).length = mid.length + 2 := by simp
  rw [hlen, findRefsGo_single mid hne hmid]
  rw [← h]
  simp [string_mk_data]

/-- The token regex on a `[ClassName.symbol]` token. -/
theorem parseRef_class_member (C m : String) (hC : validClassStr C = true)
    (hm : validSymbolStr m = true) :
    parseRef ('[' :: ((C.data ++ ('.' :: m.data)) ++ [']'])) = some (some C, some m) := by
  obtain ⟨c0, cs, hCd, h1, h2⟩ := validClassStr_elim hC
  obtain ⟨hmne, hmall⟩ := validSymbolStr_elim hm
  have hcsall : ∀ a ∈ cs, isAlnumAscii a = true := List.all_eq_true.mp h2
  have htw : (cs ++ ('.' :: (m.data ++ [']']))).takeWhile isAlnumAscii = cs := by
    rw [List.takeWhile_append_of_pos hcsall, takeWhile_stop _ (by decide)]
    simp
  have hdw : (cs ++ ('.' :: (m.data ++ [']']))).dropWhile isAlnumAscii
      = '.' :: (m.data ++ [']']) := by
    rw [List.dropWhile_append_of_pos hcsall, dropWhile_stop _ (by decide)]
  have hmtw : (m.data ++ [']']).takeWhile isSymbolChar = m.data := by
    rw [List.takeWhile_append_of_pos hmall, takeWhile_stop _ (by decide)]
    simp
  have hmdw : (m.data ++ [']']).dropWhile isSymbolChar = [']'] := by
    rw [List.dropWhile_append_of_pos hmall, dropWhile_stop _ (by decide)]
  have hshape : (C.data ++ ('.' :: m.data)) ++ [']']
      = c0 :: (cs ++ ('.' :: (m.data ++ [']']))) := by
    rw [hCd]
    simp
  rw [hshape, parseRef, if_pos rfl, parseG1, if_pos h1]
  simp only [htw, hdw]
  rw [parseDot, if_pos rfl]
  unfold parseTail
  simp only [hmtw, hmdw]
  rw [if_neg hmne]
  simp only [if_true]
  have hc : String.mk (c0 :: cs) = C := by rw [← hCd, string_mk_data]
  rw [hc, string_mk_data]

/-- The token regex on a `[ClassName]` token. -/
theorem parseRef_class_only (C : String) (hC : validClassStr C = true) :
    parseRef ('[' :: (C.data ++ [']'])) = some (some C, none) := by
  obtain ⟨c0, cs, hCd, h1, h2⟩ := validClassStr_elim hC
  have hcsall : ∀ a ∈ cs, isAlnumAscii a = true := List.all_eq_true.mp h2
  have htw : (cs ++ [']']).takeWhile isAlnumAscii = cs := by
    rw [List.takeWhile_append_of_pos hcsall, takeWhile_stop _ (by decide)]
    simp
  have hdw : (cs ++ [']']).dropWhile isAlnumAscii = [']'] := by
    rw [List.dropWhile_append_of_pos hcsall, dropWhile_stop _ (by decide)]
  have hshape : C.data ++ [']'] = c0 :: (cs ++ [']']) := by rw [hCd]; simp
  rw [hshape, parseRef, if_pos rfl, parseG1, if_pos h1]
  simp only [htw, hdw]
  rw [parseDot, if_neg (by decide)]
  unfold parseTail
  rw [takeWhile_stop _ (by decide), dropWhile_stop _ (by decide)]
  simp only [if_true]
  have hc : String.mk (c0 :: cs) = C := by rw [← hCd, string_mk_data]
  rw [hc]

/-- The token regex on a `[symbol]` token. -/
theorem parseRef_symbol_only (m : String) (hm : validSymbolStr m = true) :
    parseRef ('[' :: (m.data ++ [']'])) = some (none, some m) := by
  obtain ⟨hmne, hmall⟩ := validSymbolStr_elim hm
  obtain ⟨m0, ms, hmd⟩ : ∃ m0 ms, m.data = m0 :: ms := by
    cases hmd : m.data with
    | nil => exact absurd hmd hmne
    | cons a b => exact ⟨a, b, rfl⟩
  have hm0 : isSymbolChar m0 = true := hmall m0 (by rw [hmd]; exact List.mem_cons_self _ _)
  have hup : isUpperAZ m0 = false := sym_not_upper hm0
  have hmtw : (m.data ++ [']']).takeWhile isSymbolChar = m.data := by
    rw [List.takeWhile_append_of_pos hmall, takeWhile_stop _ (by decide)]
    simp
  have hmdw : (m.data ++ [']']).dropWhile isSymbolChar = [']'] := by
    rw [List.dropWhile_append_of_pos hmall, dropWhile_stop _ (by decide)]
  have hshape : m.data ++ [']'] = m0 :: (ms ++ [']']) := by rw [hmd]; simp
  rw [hshape, parseRef, if_pos rfl, parseG1, if_neg (by rw [hup]; exact Bool.false_ne_true)]
  show parseTail none (parseDot (m0 :: (ms ++ [']']))) = some (none, some m)
  rw [parseDot, if_neg (char_ne hm0 (by decide))]
  rw [← hshape]
  unfold parseTail
  simp only [hmtw, hmdw]
  rw [if_neg hmne]
  simp only [if_true]

theorem validClass_plain {C : String} (hC : validClassStr C = true) :
    ∀ c ∈ C.data, c ≠ ']' ∧ c ≠ '\n' := by
  obtain ⟨c0, cs, hCd, h1, h2⟩ := validClassStr_elim hC
  intro c hc
  rw [hCd] at hc
  rcases List.mem_cons.mp hc with h | h
  · subst h
    exact ⟨char_ne h1 (by decide), char_ne h1 (by decide)⟩
  · exact alnum_plain (List.all_eq_true.mp h2 c h)

theorem validSymbol_plain {m : String} (hm : validSymbolStr m = true) :
    ∀ c ∈ m.data, c ≠ ']' ∧ c ≠ '\n' := fun c hc =>
  sym_plain ((validSymbolStr_elim hm).2 c hc)

theorem token_cm_data (C m : String) :
    ("[" ++ C ++ "." ++ m ++ "]").data = '[' :: ((C.data ++ ('.' :: m.data)) ++ [']']) := by
  simp [String.data_append]

theorem foldlM_single {α β : Type} (f : α → β → Option α) (b : α) (a : β) :
    List.foldlM f b [a] = f b a := by
  cases h : f b a <;> simp [List.foldlM, h]

theorem resolveRef_cm_found {index : List (String × List String)} {cur : String}
    {st : String × List String} {ref C m : String} {mems : List String}
    (hp : parseRef ref.data = some (some C, some m))
    (hl : lookupIndex index C = some mems) (hmem : m ∈ mems) :
    resolveRef index cur st ref
      = some (replaceFirst st.1 ref (refLink (some C) (some m)), st.2) := by
  unfold resolveRef
  rw [hp]
  show (match lookupIndex index C with
        | none => some (st.1, st.2 ++ [ERROR_CLASS C])
        | some mems =>
          if m ∈ mems then
            some (replaceFirst st.1 ref (refLink (some C) (some m)), st.2)
          else some (st.1, st.2 ++ [ERROR_MEMBER m C]))
      = some (replaceFirst st.1 ref (refLink (some C) (some m)), st.2)
  rw [hl]
  show (if m ∈ mems then
          some (replaceFirst st.1 ref (refLink (some C) (some m)), st.2)
        else some (st.1, st.2 ++ [ERROR_MEMBER m C]))
      = some (replaceFirst st.1 ref (refLink (some C) (some m)), st.2)
  rw [if_pos hmem]

theorem resolveRef_class_missing {index : List (String × List String)} {cur : String}
    {st : String × List String} {ref C : String} {mopt : Option String}
    (hp : parseRef ref.data = some (some C, mopt))
    (hl : lookupIndex index C = none) :
    resolveRef index cur st ref = some (st.1, st.2 ++ [ERROR_CLASS C]) := by
  unfold resolveRef
  rw [hp]
  cases mopt with
  | some m =>
    show (match lookupIndex index C with
          | none => some (st.1, st.2 ++ [ERROR_CLASS C])
          | some mems =>
            if m ∈ mems then
              some (replaceFirst st.1 ref (refLink (some C) (some m)), st.2)
            else some (st.1, st.2 ++ [ERROR_MEMBER m C]))
        = some (st.1, st.2 ++ [ERROR_CLASS C])
    rw [hl]
  | none =>
    show (match lookupIndex index C with
          | none => some (st.1, st.2 ++ [ERROR_CLASS C])
          | some _ => some (replaceFirst st.1 ref (refLink (some C) none), st.2))
        = some (st.1, st.2 ++ [ERROR_CLASS C])
    rw [hl]

theorem resolveRef_member_missing {index : List (String × List String)} {cur : String}
    {st : String × List String} {ref C m : String} {mems : List String}
    (hp : parseRef ref.data = some (some C, some m))
    (hl : lookupIndex index C = some mems) (hmem : m ∉ mems) :
    resolveRef index cur st ref = some (st.1, st.2 ++ [ERROR_MEMBER m C]) := by
  unfold resolveRef
  rw [hp]
  show (match lookupIndex index C with
        | none => some (st.1, st.2 ++ [ERROR_CLASS C])
        | some mems =>
          if m ∈ mems then
            some (replaceFirst st.1 ref (refLink (some C) (some m)), st.2)
          else some (st.1, st.2 ++ [ERROR_MEMBER m C]))
      = some (st.1, st.2 ++ [ERROR_MEMBER m C])
  rw [hl]
  show (if m ∈ mems then
          some (replaceFirst st.1 ref (refLink (some C) (some m)), st.2)
        else some (st.1, st.2 ++ [ERROR_MEMBER m C]))
      = some (st.1, st.2 ++ [ERROR_MEMBER m C])
  rw [if_neg hmem]

theorem resolveRef_cursym_keyerror {index : List (String × List String)} {cur : String}
    {st : String × List String} {ref m : String}
    (hp : parseRef ref.data = some (none, some m))
    (hl : lookupIndex index cur = none) :
    resolveRef index cur st ref = none := by
  unfold resolveRef
  rw [hp]
  show (match lookupIndex index cur with
        | none => none
        | some mems =>
          if m ∈ mems then
            some (replaceFirst st.1 ref (refLink none (some m)), st.2)
          else some (st.1, st.2 ++ [ERROR_MEMBER m cur]))
      = none
  rw [hl]

theorem resolveRef_cursym_missing {index : List (String × List String)} {cur : String}
    {st : String × List String} {ref m : String} {mems : List String}
    (hp : parseRef ref.data = some (none, some m))
    (hl : lookupIndex index cur = some mems) (hmem : m ∉ mems) :
    resolveRef index cur st ref = some (st.1, st.2 ++ [ERROR_MEMBER m cur]) := by
  unfold resolveRef
  rw [hp]
  show (match lookupIndex index cur with
        | none => none
        | some mems =>
          if m ∈ mems then
            some (replaceFirst st.1 ref (refLink none (some m)), st.2)
          else some (st.1, st.2 ++ [ERROR_MEMBER m cur]))
      = some (st.1, st.2 ++ [ERROR_MEMBER m cur])
  rw [hl]
  show (if m ∈ mems then
          some (replaceFirst st.1 ref (refLink none (some m)), st.2)
        else some (st.1, st.2 ++ [ERROR_MEMBER m cur]))
      = some (st.1, st.2 ++ [ERROR_MEMBER m cur])
  rw [if_neg hmem]

theorem refLink_cm (C m : String) :
    refLink (some C) (some m) = make_link (C ++ "." ++ m) (C ++ "/#" ++ dashify m) := by
  apply String.ext
  simp [refLink, make_link, String.data_append]

theorem refLink_class (C : String) : refLink (some C) none = make_link C C := by
  apply String.ext
  simp [refLink, make_link, String.data_append]

theorem cm_mid_ne {C m : String} (hC : validClassStr C = true) :
    C.data ++ ('.' :: m.data) ≠ [] := by
  obtain ⟨c0, cs, hCd, _, _⟩ := validClassStr_elim hC
  rw [hCd]
  simp

theorem cm_mid_plain {C m : String} (hC : validClassStr C = true)
    (hm : validSymbolStr m = true) :
    ∀ c ∈ C.data ++ ('.' :: m.data), c ≠ ']' ∧ c ≠ '\n' := by
  intro c hc
  rcases List.mem_append.mp hc with h | h
  · exact validClass_plain hC c h
  · rcases List.mem_cons.mp h with h | h
    · subst h; exact ⟨by decide, by decide⟩
    · exact validSymbol_plain hm c h

/-- A valid `[ClassName.symbol]` reference to an indexed member resolves to
the link, with no warnings. -/
theorem replaceRefs_cm_found (index : List (String × List String)) (cur C m : String)
    (mems : List String) (hC : validClassStr C = true) (hm : validSymbolStr m = true)
    (hl : lookupIndex index C = some mems) (hmem : m ∈ mems) :
    replaceRefs index cur ("[" ++ C ++ "." ++ m ++ "]")
      = some (refLink (some C) (some m), []) := by
  have hdata := token_cm_data C m
  have hfind : findRefs ("[" ++ C ++ "." ++ m ++ "]") = ["[" ++ C ++ "." ++ m ++ "]"] :=
    findRefs_token _ _ hdata (cm_mid_ne hC) (cm_mid_plain hC hm)
  unfold replaceRefs
  rw [hfind, foldlM_single]
  have hp : parseRef ("[" ++ C ++ "." ++ m ++ "]").data = some (some C, some m) := by
    rw [hdata]; exact parseRef_class_member C m hC hm
  rw [resolveRef_cm_found hp hl hmem]
  rw [replaceFirst_self _ _ (by rw [hdata]; simp)]

/-- A `[ClassName]` reference to an indexed class resolves to the link, with
no warnings. -/
theorem replaceRefs_class_found (index : List (String × List String)) (cur C : String)
    (mems : List String) (hC : validClassStr C = true)
    (hl : lookupIndex index C = some mems) :
    replaceRefs index cur ("[" ++ C ++ "]") = some (refLink (some C) none, []) := by
  have hdata := token_data C
  obtain ⟨c0, cs, hCd, _, _⟩ := validClassStr_elim hC
  have hfind : findRefs ("[" ++ C ++ "]") = ["[" ++ C ++ "]"] :=
    findRefs_token _ _ hdata (by rw [hCd]; simp) (validClass_plain hC)
  unfold replaceRefs
  rw [hfind, foldlM_single]
  have hp : parseRef ("[" ++ C ++ "]").data = some (some C, none) := by
    rw [hdata]; exact parseRef_class_only C hC
  unfold resolveRef
  rw [hp]
  show (match lookupIndex index C with
        | none => some (("[" ++ C ++ "]"), [] ++ [ERROR_CLASS C])
        | some _ =>
          some (replaceFirst ("[" ++ C ++ "]") ("[" ++ C ++ "]") (refLink (some C) none), []))
      = some (refLink (some C) none, [])
  rw [hl, replaceFirst_self _ _ (by rw [hdata]; simp)]

/-- A `[ClassName]` or `[ClassName.symbol]` reference to a class absent from
the index leaves the text unchanged and emits exactly the class warning. -/
theorem replaceRefs_class_missing (index : List (String × List String)) (cur C : String)
    (hC : validClassStr C = true) (hl : lookupIndex index C = none) :
    replaceRefs index cur ("[" ++ C ++ "]")
      = some ("[" ++ C ++ "]", [ERROR_CLASS C]) := by
  have hdata := token_data C
  obtain ⟨c0, cs, hCd, _, _⟩ := validClassStr_elim hC
  have hfind : findRefs ("[" ++ C ++ "]") = ["[" ++ C ++ "]"] :=
    findRefs_token _ _ hdata (by rw [hCd]; simp) (validClass_plain hC)
  unfold replaceRefs
  rw [hfind, foldlM_single]
  have hp : parseRef ("[" ++ C ++ "]").data = some (some C, none) := by
    rw [hdata]; exact parseRef_class_only C hC
  rw [resolveRef_class_missing hp hl]
  rfl

/-- A `[ClassName.symbol]` reference whose symbol is not a member of the
indexed class leaves the text unchanged and emits exactly the member
warning. -/
theorem replaceRefs_member_missing (index : List (String × List String)) (cur C m : String)
    (mems : List String) (hC : validClassStr C = true) (hm : validSymbolStr m = true)
    (hl : lookupIndex index C = some mems) (hmem : m ∉ mems) :
    replaceRefs index cur ("[" ++ C ++ "." ++ m ++ "]")
      = some ("[" ++ C ++ "." ++ m ++ "]", [ERROR_MEMBER m C]) := by
  have hdata := token_cm_data C m
  have hfind : findRefs ("[" ++ C ++ "." ++ m ++ "]") = ["[" ++ C ++ "." ++ m ++ "]"] :=
    findRefs_token _ _ hdata (cm_mid_ne hC) (cm_mid_plain hC hm)
  unfold replaceRefs
  rw [hfind, foldlM_single]
  have hp : parseRef ("[" ++ C ++ "." ++ m ++ "]").data = some (some C, some m) := by
    rw [hdata]; exact parseRef_class_member C m hC hm
  rw [resolveRef_member_missing hp hl hmem]
  rfl

/-- A `[symbol]` reference when the current class is absent from the index
raises the `KeyError` of line 290. -/
theorem replaceRefs_cursym_keyerror (index : List (String × List String)) (cur m : String)
    (hm : validSymbolStr m = true) (hl : lookupIndex index cur = none) :
    replaceRefs index cur ("[" ++ m ++ "]") = none := by
  have hdata := token_data m
  obtain ⟨hmne, _⟩ := validSymbolStr_elim hm
  have hfind : findRefs ("[" ++ m ++ "]") = ["[" ++ m ++ "]"] :=
    findRefs_token _ _ hdata hmne (validSymbol_plain hm)
  unfold replaceRefs
  rw [hfind, foldlM_single]
  have hp : parseRef ("[" ++ m ++ "]").data = some (none, some m) := by
    rw [hdata]; exact parseRef_symbol_only m hm
  rw [resolveRef_cursym_keyerror hp hl]

/-- A `[symbol]` reference that is not a member of the current (indexed)
class leaves the text unchanged and emits exactly the member warning naming
the current class. -/
theorem replaceRefs_cursym_missing (index : List (String × List String)) (cur m : String)
    (mems : List String) (hm : validSymbolStr m = true)
    (hl : lookupIndex index cur = some mems) (hmem : m ∉ mems) :
    replaceRefs index cur ("[" ++ m ++ "]")
      = some ("[" ++ m ++ "]", [ERROR_MEMBER m cur]) := by
  have hdata := token_data m
  obtain ⟨hmne, _⟩ := validSymbolStr_elim hm
  have hfind : findRefs ("[" ++ m ++ "]") = ["[" ++ m ++ "]"] :=
    findRefs_token _ _ hdata hmne (validSymbol_plain hm)
  unfold replaceRefs
  rw [hfind, foldlM_single]
  have hp : parseRef ("[" ++ m ++ "]").data = some (none, some m) := by
    rw [hdata]; exact parseRef_symbol_only m hm
  rw [resolveRef_cursym_missing hp hl hmem]
  rfl

/-! ## Infrastructure lemmas for the composer -/

theorem renameMain_members (c : GDScriptClass) : (renameMain c).members = c.members := by
  unfold renameMain; split <;> rfl

theorem renameMain_functions (c : GDScriptClass) : (renameMain c).functions = c.functions := by
  unfold renameMain; split <;> rfl

theorem renameMain_signals (c : GDScriptClass) : (renameMain c).signals = c.signals := by
  unfold renameMain; split <;> rfl

theorem renameMain_enums (c : GDScriptClass) : (renameMain c).enums = c.enums := by
  unfold renameMain; split <;> rfl

theorem renameMain_extends (c : GDScriptClass) :
    (renameMain c).extends_class = c.extends_class := by
  unfold renameMain; split <;> rfl

theorem renameMain_jekyll_path (c : GDScriptClass) :
    (renameMain c).jekyll_path = c.jekyll_path := by
  unfold renameMain; split <;> rfl

theorem renameMain_of_ne {c : GDScriptClass} (h : c.name ≠ "Main") : renameMain c = c := by
  unfold renameMain
  rw [if_neg h]

/-- Dissection of a successful `as_markdown` run into its section pieces. -/
theorem as_markdown_eq {classes : List GDScriptClass} {c : GDScriptClass}
    {args : Arguments} {d : MarkdownDocument}
    (h : as_markdown classes c args = some d) :
    ∃ desc sigs enumsSec propDescSec funDescSec,
      replaceRefsText classes (renameMain c) (renameMain c).description = some desc ∧
      signals_section classes (renameMain c) = some sigs ∧
      detail_section classes (renameMain c) (renameMain c).enums "Enumerations"
        = some enumsSec ∧
      detail_section classes (renameMain c) (renameMain c).members "Property Descriptions"
        = some propDescSec ∧
      detail_section classes (renameMain c) (renameMain c).functions "Method Descriptions"
        = some funDescSec ∧
      d = MarkdownDocument.mk (renameMain c).name
        (front_matter (renameMain c) args ++ heading_part (renameMain c) args ++
         extends_part classes (renameMain c) ++ mkSection "Description" 2 [desc] ++
         summary_sections (renameMain c) ++ sigs ++ enumsSec ++ propDescSec ++ funDescSec) := by
  unfold as_markdown at h
  simp only [bind, Option.bind_eq_some, pure, Option.some.injEq] at h
  obtain ⟨desc, h1, sigs, h2, e1, h3, p1, h4, f1, h5, hd⟩ := h
  exact ⟨desc, sigs, e1, p1, f1, h1, h2, h3, h4, h5, hd.symm⟩

/-! ## Test fixtures -/

/-- A minimal class named Foo used by concrete evaluations. -/
def fooClass : GDScriptClass :=
  ⟨"Foo", none, "", "", "", [], [], [], [], []⟩

/-- A minimal class named Bar used by concrete evaluations. -/
def barClass : GDScriptClass :=
  ⟨"Bar", none, "", "", "", [], [], [], [], []⟩

/-! ## Claims -/

/-- Claim C1, counterexample: with `Foo` in the index and `my_sym` a member
of `Foo`, resolving `[Foo.my_sym]` produces the link
`[Foo.my_sym](Foo/#my-sym)` — the target path has a slash between the class
name and the anchor — and not the claimed `[Foo.my_sym](Foo#my-sym)`. -/
theorem c1_counterexample :
    replaceRefs [("Foo", ["my_sym"])] "Foo" "[Foo.my_sym]"
      = some ("[Foo.my_sym](Foo/#my-sym)", []) ∧
    "[Foo.my_sym](Foo/#my-sym)" ≠ "[Foo.my_sym](Foo#my-sym)" := by
  constructor
  · rfl
  · decide

/-- Claim C1 (amended): for every valid reference token `[ClassName.symbol]`
whose class is in the index with the symbol among its members, the resolver
replaces the token by a link whose display text is exactly
`ClassName.symbol` (underscores kept) and whose target path is
`ClassName/#symbol` — the class name, then a slash, then the anchor with
every underscore of the symbol converted to a dash (the conversion applies
only to the anchor fragment, never to the display text) — emitting no
warning. -/
theorem c1_member_reference_link (index : List (String × List String))
    (cur C m : String) (mems : List String) (hC : validClassStr C = true)
    (hm : validSymbolStr m = true) (hl : lookupIndex index C = some mems)
    (hmem : m ∈ mems) :
    replaceRefs index cur ("[" ++ C ++ "." ++ m ++ "]")
      = some (make_link (C ++ "." ++ m) (C ++ "/#" ++ dashify m), []) := by
  rw [replaceRefs_cm_found index cur C m mems hC hm hl hmem, refLink_cm]

/-- Witness for C1 at a concrete input. -/
theorem c1_member_reference_link_witness :
    validClassStr "Foo" = true ∧ validSymbolStr "my_sym" = true ∧
    replaceRefs [("Foo", ["my_sym"])] "Foo" "[Foo.my_sym]"
      = some (make_link "Foo.my_sym" "Foo/#my-sym", []) := by
  refine ⟨by decide, by decide, ?_⟩
  show replaceRefs [("Foo", ["my_sym"])] "Foo" ("[" ++ "Foo" ++ "." ++ "my_sym" ++ "]")
      = some (make_link ("Foo" ++ "." ++ "my_sym") ("Foo" ++ "/#" ++ dashify "my_sym"), [])
  exact c1_member_reference_link [("Foo", ["my_sym"])] "Foo" "Foo" "my_sym" ["my_sym"]
    (by decide) (by decide) (by decide) (by decide)

/-- Claim C3, counterexample: the class-not-found warning actually emitted
concatenates the message and the tail with no separating space, so it is not
the claimed `Class Xyz not found in the class index. The name might be
incorrect.`. -/
theorem c3_counterexample :
    replaceRefs [] "Cur" "[Xyz]"
      = some ("[Xyz]",
          ["Class Xyz not found in the class index.The name might be incorrect."]) ∧
    "Class Xyz not found in the class index.The name might be incorrect."
      ≠ "Class Xyz not found in the class index. The name might be incorrect." := by
  constructor
  · rfl
  · decide

/-- Claim C3 (amended): a reference token naming a class absent from the
index, or a symbol that is not a member of the named (or current, indexed)
class, emits exactly one warning and leaves the bracketed text verbatim; the
class-not-found message is
`Class X not found in the class index.The name might be incorrect.` (no
space before the tail sentence, which the code concatenates directly; the
member message gets the tail sentence appended twice). -/
theorem c3_unresolved_reference_warns :
    (∀ (index : List (String × List String)) (cur C : String),
      validClassStr C = true → lookupIndex index C = none →
      replaceRefs index cur ("[" ++ C ++ "]")
        = some ("[" ++ C ++ "]",
            ["Class " ++ C ++ " not found in the class index.The name might be incorrect."])) ∧
    (∀ (index : List (String × List String)) (cur C m : String) (mems : List String),
      validClassStr C = true → validSymbolStr m = true →
      lookupIndex index C = some mems → m ∉ mems →
      replaceRefs index cur ("[" ++ C ++ "." ++ m ++ "]")
        = some ("[" ++ C ++ "." ++ m ++ "]", [ERROR_MEMBER m C])) ∧
    (∀ (index : List (String × List String)) (cur m : String) (mems : List String),
      validSymbolStr m = true → lookupIndex index cur = some mems → m ∉ mems →
      replaceRefs index cur ("[" ++ m ++ "]")
        = some ("[" ++ m ++ "]", [ERROR_MEMBER m cur])) := by
  refine ⟨?_, ?_, ?_⟩
  · intro index cur C hC hl
    rw [replaceRefs_class_missing index cur C hC hl]
    have : ERROR_CLASS C
        = "Class " ++ C ++ " not found in the class index.The name might be incorrect." := by
      apply String.ext
      simp [ERROR_CLASS, String.data_append]
    rw [this]
  · intro index cur C m mems hC hm hl hmem
    exact replaceRefs_member_missing index cur C m mems hC hm hl hmem
  · intro index cur m mems hm hl hmem
    exact replaceRefs_cursym_missing index cur m mems hm hl hmem

/-- Witness for C3 at concrete inputs exercising all three warning cases. -/
theorem c3_unresolved_reference_warns_witness :
    replaceRefs [] "Cur" "[Abc]"
      = some ("[Abc]",
          ["Class Abc not found in the class index.The name might be incorrect."]) ∧
    replaceRefs [("Foo", [])] "Cur" "[Foo.bad]"
      = some ("[Foo.bad]", [ERROR_MEMBER "bad" "Foo"]) ∧
    replaceRefs [("Cur", [])] "Cur" "[bad]"
      = some ("[bad]", [ERROR_MEMBER "bad" "Cur"]) := by
  refine ⟨?_, ?_, ?_⟩
  · show replaceRefs [] "Cur" ("[" ++ "Abc" ++ "]")
        = some ("[" ++ "Abc" ++ "]",
            ["Class " ++ "Abc" ++ " not found in the class index.The name might be incorrect."])
    exact c3_unresolved_reference_warns.1 [] "Cur" "Abc" (by decide) (by decide)
  · show replaceRefs [("Foo", [])] "Cur" ("[" ++ "Foo" ++ "." ++ "bad" ++ "]")
        = some ("[" ++ "Foo" ++ "." ++ "bad" ++ "]", [ERROR_MEMBER "bad" "Foo"])
    exact c3_unresolved_reference_warns.2.1 [("Foo", [])] "Cur" "Foo" "bad" []
      (by decide) (by decide) (by decide) (by decide)
  · show replaceRefs [("Cur", [])] "Cur" ("[" ++ "bad" ++ "]")
        = some ("[" ++ "bad" ++ "]", [ERROR_MEMBER "bad" "Cur"])
    exact c3_unresolved_reference_warns.2.2 [("Cur", [])] "Cur" "bad" []
      (by decide) (by decide) (by decide)

/-- Claim C4 (code bug): on a description holding two valid reference
tokens on one line, the greedy findall pattern matches the whole span
`[Foo] and [Bar]` as a single reference, which resolves via its prefix
`[Foo]` and replaces the entire span with that one link: the text ` and
[Bar]` is destroyed instead of `[Bar]` being resolved independently. -/
theorem c4_greedy_destroys_second_token :
    replace_references [fooClass, barClass] fooClass "See [Foo] and [Bar]"
      = some ("See [Foo](Foo)", []) := by
  rfl

/-- Claim C9, counterexample: with the current class `Ghost` absent from the
index, resolving the symbol-only reference `[foo]` raises (modelled `none`),
instead of the claimed warn-and-leave outcome. -/
theorem c9_counterexample : replaceRefs [] "Ghost" "[foo]" = none := by
  rfl

/-- Claim C9 (amended): for a symbol-only reference token resolved while the
current class is absent from the class index, resolution raises a failed
index lookup (`KeyError`, modelled as `none`) rather than treating the
reference as a not-found outcome. -/
theorem c9_missing_current_class_raises (index : List (String × List String))
    (cur m : String) (hm : validSymbolStr m = true)
    (hl : lookupIndex index cur = none) :
    replaceRefs index cur ("[" ++ m ++ "]") = none :=
  replaceRefs_cursym_keyerror index cur m hm hl

/-- Witness for C9 at a concrete input. -/
theorem c9_missing_current_class_raises_witness :
    validSymbolStr "foo" = true ∧ lookupIndex [] "Ghost" = none ∧
    replaceRefs [] "Ghost" "[foo]" = none := by
  refine ⟨by decide, by decide, ?_⟩
  show replaceRefs [] "Ghost" ("[" ++ "foo" ++ "]") = none
  exact c9_missing_current_class_raises [] "Ghost" "foo" (by decide) (by decide)

/-- Chain fixture: X extends A. -/
def clsX : GDScriptClass := ⟨"X", some "A", "", "", "", [], [], [], [], []⟩

/-- Chain fixture: A extends B. -/
def clsA : GDScriptClass := ⟨"A", some "B", "", "", "", [], [], [], [], []⟩

/-- Chain fixture: B extends C, with C unknown to the index. -/
def clsB : GDScriptClass := ⟨"B", some "C", "", "", "", [], [], [], [], []⟩

/-- The classes of the inheritance-chain fixture. -/
def c2classes : List GDScriptClass := [clsX, clsA, clsB]

/-- Claim C2, counterexample: for X with ancestor chain A, B, C where C is
unknown to the index, the rendered inheritance line links every ancestor —
`**Extends:** [A](A) < [B](B) < [C](C)` — and the claimed line with `C` as
plain unlinked text appears nowhere in the document. -/
theorem c2_counterexample :
    as_markdown c2classes clsX ⟨OutputFormats.MARDKOWN, false⟩
      = some ⟨"X", ["# X", "", "**Extends:** [A](A) < [B](B) < [C](C)",
                    "## Description", "", ""]⟩ ∧
    "**Extends:** [A](A) < [B](B) < C"
      ∉ (["# X", "", "**Extends:** [A](A) < [B](B) < [C](C)",
          "## Description", "", ""] : List String) := by
  constructor
  · rfl
  · decide

/-- Claim C2 (amended): for every class with a parent, the composed document
contains the inheritance line `**Extends:** ...` joining the ancestor chain
with ` < `, in which every ancestor — those found in the index and the final
unresolved one alike — is rendered as a link `[name](name)`; no error is
raised (composition still succeeds). -/
theorem c2_extends_chain_all_linked (classes : List GDScriptClass)
    (c : GDScriptClass) (args : Arguments) (d : MarkdownDocument)
    (h : as_markdown classes c args = some d) (hx : c.extends_class ≠ none) :
    (make_bold "Extends:" ++ " " ++
      joinSep " < " ((get_extends_tree classes (renameMain c)).map
        (fun e => make_link e e))) ∈ d.content := by
  obtain ⟨desc, sigs, e1, p1, f1, h1, h2, h3, h4, h5, hd⟩ := as_markdown_eq h
  subst hd
  have hext : extends_part classes (renameMain c)
      = [make_bold "Extends:" ++ " " ++
          joinSep " < " ((get_extends_tree classes (renameMain c)).map
            (fun e => make_link e e))] := by
    unfold extends_part
    rw [renameMain_extends]
    cases hec : c.extends_class with
    | none => exact absurd hec hx
    | some e => rfl
  show _ ∈ front_matter (renameMain c) args ++ heading_part (renameMain c) args ++
      extends_part classes (renameMain c) ++ _ ++ _ ++ _ ++ _ ++ _ ++ _
  simp [List.mem_append, hext]

/-- Witness for C2 at the concrete chain fixture. -/
theorem c2_extends_chain_all_linked_witness :
    clsX.extends_class ≠ none ∧
    (make_bold "Extends:" ++ " " ++
      joinSep " < " ((get_extends_tree c2classes (renameMain clsX)).map
        (fun e => make_link e e)))
      ∈ (["# X", "", "**Extends:** [A](A) < [B](B) < [C](C)",
          "## Description", "", ""] : List String) := by
  refine ⟨by decide, ?_⟩
  exact c2_extends_chain_all_linked c2classes clsX ⟨OutputFormats.MARDKOWN, false⟩
    ⟨"X", ["# X", "", "**Extends:** [A](A) < [B](B) < [C](C)",
           "## Description", "", ""]⟩ rfl (by decide)

/-- A class literally named Rakugo (never named Main). -/
def rakugoClass : GDScriptClass :=
  ⟨"Rakugo", none, "", "", "/characters/rakugo", [], [], [], [], []⟩

/-- The sentinel root class fixture. -/
def mainClass : GDScriptClass := ⟨"Main", none, "", "", "/main", [], [], [], [], []⟩

/-- Claim C5, counterexample: a class originally named `Rakugo` — not the
sentinel `Main` — also receives the fixed front matter (fixed permalink
`/rakugo`, navigation order 1) instead of the generic path-derived front
matter, so the special treatment is not limited to the renamed root class. -/
theorem c5_counterexample :
    rakugoClass.name ≠ "Main" ∧
    as_markdown [rakugoClass] rakugoClass ⟨OutputFormats.JEKYLL, true⟩
      = some ⟨"Rakugo",
          [jekyll ["title: Rakugo", "permalink: /rakugo", "nav_order: 1"],
           "## Description", "", ""]⟩ ∧
    jekyll ["title: Rakugo", "permalink: /rakugo", "nav_order: 1"]
      ≠ jekyll ["title: Rakugo", "permalink: /characters/rakugo",
                "parent: Characters"] := by
  refine ⟨by decide, ?_, by decide⟩
  rfl

/-- Claim C5 (amended): a class named `Main` is renamed to the display name
`Rakugo` before its document is built, and in the Jekyll format every class
whose (post-rename) name is `Rakugo` — the renamed root class, but also any
class originally carrying that name — gets front matter with the fixed
title, the fixed permalink `/rakugo` and navigation order 1, while every
other class gets the generic path-derived permalink and parent category. -/
theorem c5_root_class_special_front_matter (classes : List GDScriptClass)
    (c : GDScriptClass) (args : Arguments) (d : MarkdownDocument)
    (hfmt : args.format = OutputFormats.JEKYLL)
    (h : as_markdown classes c args = some d) :
    (c.name = "Main" → d.name = "Rakugo") ∧
    ((renameMain c).name = "Rakugo" →
      d.content.head? = some (jekyll
        ["title: Rakugo", "permalink: /rakugo", "nav_order: 1"])) ∧
    ((renameMain c).name ≠ "Rakugo" →
      d.content.head? = some (jekyll
        ["title: " ++ c.name, "permalink: " ++ c.jekyll_path,
         "parent: " ++ parent_label (renameMain c)])) := by
  obtain ⟨desc, sigs, e1, p1, f1, h1, h2, h3, h4, h5, hd⟩ := as_markdown_eq h
  subst hd
  refine ⟨?_, ?_, ?_⟩
  · intro hmain
    show (renameMain c).name = "Rakugo"
    unfold renameMain
    rw [if_pos hmain]
  · intro hR
    have hfm : front_matter (renameMain c) args
        = [jekyll ["title: Rakugo", "permalink: /rakugo", "nav_order: 1"]] := by
      unfold front_matter
      rw [hfmt, if_pos rfl, if_pos hR, hR]
      decide
    show (front_matter (renameMain c) args ++ heading_part (renameMain c) args ++
        extends_part classes (renameMain c) ++ mkSection "Description" 2 [desc] ++
        summary_sections (renameMain c) ++ sigs ++ e1 ++ p1 ++ f1).head? = _
    rw [hfm]
    rfl
  · intro hR
    have hcne : c.name ≠ "Main" := by
      intro hmain
      apply hR
      unfold renameMain
      rw [if_pos hmain]
    have hfm : front_matter (renameMain c) args
        = [jekyll ["title: " ++ c.name, "permalink: " ++ c.jekyll_path,
                   "parent: " ++ parent_label (renameMain c)]] := by
      unfold front_matter
      rw [hfmt, if_pos rfl, if_neg hR]
      rw [show (renameMain c).name = c.name from by rw [renameMain_of_ne hcne]]
      rw [renameMain_jekyll_path]
    show (front_matter (renameMain c) args ++ heading_part (renameMain c) args ++
        extends_part classes (renameMain c) ++ mkSection "Description" 2 [desc] ++
        summary_sections (renameMain c) ++ sigs ++ e1 ++ p1 ++ f1).head? = _
    rw [hfm]
    rfl

/-- Witness for C5 at the concrete `Main` fixture. -/
theorem c5_root_class_special_front_matter_witness :
    mainClass.name = "Main" ∧
    ∃ d, as_markdown [mainClass] mainClass ⟨OutputFormats.JEKYLL, true⟩ = some d ∧
      d.name = "Rakugo" ∧
      d.content.head? = some (jekyll
        ["title: Rakugo", "permalink: /rakugo", "nav_order: 1"]) := by
  refine ⟨rfl,
    ⟨"Rakugo", [jekyll ["title: Rakugo", "permalink: /rakugo", "nav_order: 1"],
                "## Description", "", ""]⟩, rfl, ?_, ?_⟩
  · exact (c5_root_class_special_front_matter [mainClass] mainClass
      ⟨OutputFormats.JEKYLL, true⟩ _ rfl rfl).1 rfl
  · exact (c5_root_class_special_front_matter [mainClass] mainClass
      ⟨OutputFormats.JEKYLL, true⟩ _ rfl rfl).2.1 rfl

/-- A class with a parent but no members at all. -/
def nodeChild : GDScriptClass := ⟨"Solo", some "Node", "", "", "", [], [], [], [], []⟩

/-- Claim C8, counterexample: a class with empty property, function, signal
and enum lists but a parent produces a document that also contains the
inheritance line, so the document is not only heading plus Description. -/
theorem c8_counterexample :
    as_markdown [nodeChild] nodeChild ⟨OutputFormats.MARDKOWN, false⟩
      = some ⟨"Solo", ["# Solo", "", "**Extends:** [Node](Node)",
                       "## Description", "", ""]⟩ ∧
    (["# Solo", "", "**Extends:** [Node](Node)", "## Description", "", ""] : List String)
      ≠ ["# Solo", ""] ++ mkSection "Description" 2 [""] := by
  constructor
  · rfl
  · decide

/-- Claim C8 (amended): for every class whose property, function, signal and
enum lists are all empty, the composed document consists of exactly its
front matter or heading, the inheritance line when the class has a parent,
and the Description section: no summary table, no Signals section and no
Enumerations, Property Descriptions or Method Descriptions headings are
emitted. -/
theorem c8_empty_class_minimal_document (classes : List GDScriptClass)
    (c : GDScriptClass) (args : Arguments) (d : MarkdownDocument)
    (hm : c.members = []) (hf : c.functions = []) (hs : c.signals = [])
    (he : c.enums = []) (h : as_markdown classes c args = some d) :
    ∃ desc, replaceRefsText classes (renameMain c) (renameMain c).description
        = some desc ∧
      d.content = front_matter (renameMain c) args ++
        heading_part (renameMain c) args ++ extends_part classes (renameMain c) ++
        mkSection "Description" 2 [desc] := by
  obtain ⟨desc, sigs, e1, p1, f1, h1, h2, h3, h4, h5, hd⟩ := as_markdown_eq h
  subst hd
  refine ⟨desc, h1, ?_⟩
  have hsig : sigs = [] := by
    unfold signals_section at h2
    rw [renameMain_signals, hs, if_pos rfl] at h2
    exact (Option.some.injEq _ _ ▸ h2).symm
  have henum : e1 = [] := by
    unfold detail_section at h3
    rw [renameMain_enums, he, if_pos rfl] at h3
    exact (Option.some.injEq _ _ ▸ h3).symm
  have hprop : p1 = [] := by
    unfold detail_section at h4
    rw [renameMain_members, hm, if_pos rfl] at h4
    exact (Option.some.injEq _ _ ▸ h4).symm
  have hfun : f1 = [] := by
    unfold detail_section at h5
    rw [renameMain_functions, hf, if_pos rfl] at h5
    exact (Option.some.injEq _ _ ▸ h5).symm
  have hsum : summary_sections (renameMain c) = [] := by
    unfold summary_sections
    rw [renameMain_members, renameMain_functions, hm, hf]
    unfold write_summary
    rw [if_pos rfl]
    simp
  show (front_matter (renameMain c) args ++ heading_part (renameMain c) args ++
      extends_part classes (renameMain c) ++ mkSection "Description" 2 [desc] ++
      summary_sections (renameMain c) ++ sigs ++ e1 ++ p1 ++ f1) = _
  rw [hsig, henum, hprop, hfun, hsum]
  simp

/-- Witness for C8 at a concrete memberless class. -/
theorem c8_empty_class_minimal_document_witness :
    fooClass.members = [] ∧ fooClass.functions = [] ∧
    fooClass.signals = [] ∧ fooClass.enums = [] ∧
    ∃ desc, replaceRefsText [fooClass] (renameMain fooClass)
        (renameMain fooClass).description = some desc ∧
      (⟨"Foo", ["# Foo", "", "## Description", "", ""]⟩ : MarkdownDocument).content
        = front_matter (renameMain fooClass) ⟨OutputFormats.MARDKOWN, false⟩ ++
          heading_part (renameMain fooClass) ⟨OutputFormats.MARDKOWN, false⟩ ++
          extends_part [fooClass] (renameMain fooClass) ++
          mkSection "Description" 2 [desc] := by
  refine ⟨rfl, rfl, rfl, rfl, ?_⟩
  exact c8_empty_class_minimal_document [fooClass] fooClass
    ⟨OutputFormats.MARDKOWN, false⟩
    ⟨"Foo", ["# Foo", "", "## Description", "", ""]⟩ rfl rfl rfl rfl rfl

/-! ## Infrastructure for the index page, section documents and ordering -/

theorem mem_dedupFirstSeen_aux (l : List String) :
    ∀ (acc : List String) (p : String),
      p ∈ l.foldl (fun acc c => if c ∈ acc then acc else acc ++ [c]) acc
        ↔ p ∈ acc ∨ p ∈ l := by
  induction l with
  | nil => simp
  | cons a l ih =>
    intro acc p
    simp only [List.foldl_cons]
    by_cases h : a ∈ acc
    · rw [if_pos h, ih]
      simp only [List.mem_cons]
      constructor
      · rintro (h1 | h1)
        · exact Or.inl h1
        · exact Or.inr (Or.inr h1)
      · rintro (h1 | h1 | h1)
        · exact Or.inl h1
        · subst h1; exact Or.inl h
        · exact Or.inr h1
    · rw [if_neg h, ih]
      simp only [List.mem_append, List.mem_cons, List.mem_singleton]
      tauto

theorem mem_dedupFirstSeen (l : List String) (p : String) :
    p ∈ dedupFirstSeen l ↔ p ∈ l := by
  unfold dedupFirstSeen
  rw [mem_dedupFirstSeen_aux]
  simp

theorem toc_group_cons (first : GDScriptClass) (rest : List GDScriptClass) :
    toc_group (first :: rest) =
      if first.category ≠ "" then
        ("- " ++ make_bold first.category) ::
          (first :: rest).map (fun c => "  " ++ "- " ++ make_link c.name c.name)
      else (first :: rest).map (fun c => "" ++ "- " ++ make_link c.name c.name) := rfl

/-- Every class contributes its link line to the table of contents. -/
theorem toc_contains_class (classes : List GDScriptClass) :
    ∀ c ∈ classes,
      ((if c.category = "" then "" else "  ") ++ "- " ++ make_link c.name c.name)
        ∈ write_table_of_contents classes := by
  intro c hc
  unfold write_table_of_contents
  rw [List.mem_flatten]
  refine ⟨toc_group (classes.filter (fun x => x.category = c.category)), ?_, ?_⟩
  · apply List.mem_map_of_mem
    unfold get_grouped_by_category
    apply List.mem_map_of_mem
    rw [mem_dedupFirstSeen]
    exact List.mem_map_of_mem GDScriptClass.category hc
  · have hcg : c ∈ classes.filter (fun x => x.category = c.category) :=
      List.mem_filter.mpr ⟨hc, by simp⟩
    cases hg : classes.filter (fun x => x.category = c.category) with
    | nil => rw [hg] at hcg; exact absurd hcg (List.not_mem_nil c)
    | cons first rest =>
      rw [hg] at hcg
      have hfirst : first.category = c.category := by
        have hmem : first ∈ classes.filter (fun x => x.category = c.category) := by
          rw [hg]; exact List.mem_cons_self _ _
        exact of_decide_eq_true (List.mem_filter.mp hmem).2
      rw [toc_group_cons]
      by_cases hcat : c.category = ""
      · rw [if_neg (show ¬first.category ≠ "" by rw [hfirst, hcat]; simp),
           if_pos hcat]
        exact List.mem_map_of_mem _ hcg
      · rw [if_pos (show first.category ≠ "" by rw [hfirst]; exact hcat),
           if_neg hcat]
        exact List.mem_cons_of_mem _ (List.mem_map_of_mem _ hcg)

/-- Dissection of a successful `convert_to_markdown` run. -/
theorem convert_eq {classes : List GDScriptClass} {args : Arguments}
    {info : ProjectInfo} {l : List MarkdownDocument}
    (h : convert_to_markdown classes args info = some l) :
    ∃ docs, classes.mapM (fun e => as_markdown classes e args) = some docs ∧
      l = (if args.make_index = true ∧ args.format ≠ OutputFormats.JEKYLL
           then [write_index_page classes info] else []) ++ docs ++
          section_docs classes args := by
  unfold convert_to_markdown at h
  simp only [bind, Option.bind_eq_some, pure, Option.some.injEq] at h
  obtain ⟨docs, h1, h2⟩ := h
  exact ⟨docs, h1, h2.symm⟩

theorem buildIndexKeys_not_jekyll (classes : List GDScriptClass) (args : Arguments)
    (h : ¬(args.format = OutputFormats.JEKYLL ∧ args.make_index = true)) :
    buildIndexKeys classes args = [] := by
  unfold buildIndexKeys
  have hid : ∀ ks c, add_index_keys args ks c = ks := by
    intro ks c
    unfold add_index_keys
    rw [if_neg h]
  suffices hgen : ∀ acc : List String, classes.foldl (add_index_keys args) acc = acc by
    exact hgen []
  induction classes with
  | nil => intro acc; rfl
  | cons c cs ih =>
    intro acc
    simp only [List.foldl_cons]
    rw [hid acc c]
    exact ih acc

theorem section_docs_not_jekyll (classes : List GDScriptClass) (args : Arguments)
    (h : ¬(args.format = OutputFormats.JEKYLL ∧ args.make_index = true)) :
    section_docs classes args = [] := by
  unfold section_docs
  rw [buildIndexKeys_not_jekyll classes args h]
  rfl

/-- A sample project descriptor. -/
def someInfo : ProjectInfo := ⟨"Proj", "1.0", "A demo project."⟩

/-- Claim C6: the index/table-of-contents document is produced exactly when
index generation is requested and the output format is the flat markdown
format, in which case it comes first and no section documents exist; it
carries the project description and a table of contents in which every class
of every category group appears as a link with its category indentation. -/
theorem c6_index_document_iff_flat (classes : List GDScriptClass) (args : Arguments)
    (info : ProjectInfo) :
    (args.make_index = true → args.format = OutputFormats.MARDKOWN →
      convert_to_markdown classes args info
        = (classes.mapM (fun e => as_markdown classes e args)).map
            (fun docs => write_index_page classes info :: docs)) ∧
    (args.make_index = false ∨ args.format = OutputFormats.JEKYLL →
      convert_to_markdown classes args info
        = (classes.mapM (fun e => as_markdown classes e args)).map
            (fun docs => docs ++ section_docs classes args)) ∧
    info.description ∈ (write_index_page classes info).content ∧
    (∀ c ∈ classes,
      ((if c.category = "" then "" else "  ") ++ "- " ++ make_link c.name c.name)
        ∈ write_table_of_contents classes) := by
  refine ⟨?_, ?_, ?_, toc_contains_class classes⟩
  · intro hmi hfmt
    unfold convert_to_markdown
    cases h : classes.mapM (fun e => as_markdown classes e args) with
    | none => rfl
    | some docs =>
      show some _ = some _
      congr 1
      rw [if_pos ⟨hmi, by rw [hfmt]; intro hx; exact OutputFormats.noConfusion hx⟩]
      rw [section_docs_not_jekyll classes args
        (by rw [hfmt]; rintro ⟨hx, -⟩; exact OutputFormats.noConfusion hx)]
      simp
  · intro hor
    unfold convert_to_markdown
    cases h : classes.mapM (fun e => as_markdown classes e args) with
    | none => rfl
    | some docs =>
      show some _ = some _
      congr 1
      rw [if_neg (by
        rintro ⟨h1, h2⟩
        rcases hor with h3 | h3
        · rw [h1] at h3; exact Bool.noConfusion h3
        · exact h2 h3)]
      rfl
  · show info.description ∈
      mkSection (info.name ++ " (" ++ surround_with_html info.version "small" ++ ")") 1
        [info.description] ++
      mkSection "Contents" 2 (write_table_of_contents classes)
    unfold mkSection make_heading
    simp

/-- Witness for C6 at a concrete flat-format run with the index requested. -/
theorem c6_index_document_iff_flat_witness :
    convert_to_markdown [fooClass] ⟨OutputFormats.MARDKOWN, true⟩ someInfo
      = (([fooClass].mapM
          (fun e => as_markdown [fooClass] e ⟨OutputFormats.MARDKOWN, true⟩)).map
            (fun docs => write_index_page [fooClass] someInfo :: docs)) ∧
    someInfo.description ∈ (write_index_page [fooClass] someInfo).content :=
  ⟨(c6_index_document_iff_flat [fooClass] ⟨OutputFormats.MARDKOWN, true⟩ someInfo).1
      rfl rfl,
   (c6_index_document_iff_flat [fooClass] ⟨OutputFormats.MARDKOWN, true⟩ someInfo).2.2.1⟩

/-! ## Index-key membership lemmas for the section documents -/

/-- The last path segment of a class's navigation path (Python `paths[-1]`). -/
def leaf_seg (c : GDScriptClass) : String := (splitPath c.jekyll_path).getLastD ""

theorem addkeys_fold_mem (ps : List String) (L : String) :
    ∀ (acc : List String) (p : String),
      p ∈ ps.foldl (fun ks q => if q = "" ∨ q = L then ks
          else if q ∈ ks then ks else ks ++ [q]) acc
        ↔ p ∈ acc ∨ (p ∈ ps ∧ ¬(p = "" ∨ p = L)) := by
  induction ps with
  | nil => simp
  | cons a ps ih =>
    intro acc p
    simp only [List.foldl_cons]
    by_cases h1 : a = "" ∨ a = L
    · rw [if_pos h1, ih]
      simp only [List.mem_cons]
      constructor
      · rintro (h | ⟨h2, h3⟩)
        · exact Or.inl h
        · exact Or.inr ⟨Or.inr h2, h3⟩
      · rintro (h | ⟨h2 | h2, h3⟩)
        · exact Or.inl h
        · subst h2; exact absurd h1 h3
        · exact Or.inr ⟨h2, h3⟩
    · rw [if_neg h1]
      by_cases h2 : a ∈ acc
      · rw [if_pos h2, ih]
        simp only [List.mem_cons]
        constructor
        · rintro (h | ⟨h3, h4⟩)
          · exact Or.inl h
          · exact Or.inr ⟨Or.inr h3, h4⟩
        · rintro (h | ⟨h3 | h3, h4⟩)
          · exact Or.inl h
          · subst h3; exact Or.inl h2
          · exact Or.inr ⟨h3, h4⟩
      · rw [if_neg h2, ih]
        simp only [List.mem_append, List.mem_cons, List.mem_singleton,
          List.not_mem_nil, or_false]
        constructor
        · rintro ((h | h) | ⟨h3, h4⟩)
          · exact Or.inl h
          · subst h; exact Or.inr ⟨Or.inl rfl, h1⟩
          · exact Or.inr ⟨Or.inr h3, h4⟩
        · rintro (h | ⟨h3 | h3, h4⟩)
          · exact Or.inl (Or.inl h)
          · subst h3; exact Or.inl (Or.inr rfl)
          · exact Or.inr ⟨h3, h4⟩

theorem addkeys_fold_nodup (ps : List String) (L : String) :
    ∀ acc : List String, acc.Nodup →
      (ps.foldl (fun ks q => if q = "" ∨ q = L then ks
          else if q ∈ ks then ks else ks ++ [q]) acc).Nodup := by
  induction ps with
  | nil => intro acc h; exact h
  | cons a ps ih =>
    intro acc h
    simp only [List.foldl_cons]
    by_cases h1 : a = "" ∨ a = L
    · rw [if_pos h1]; exact ih acc h
    · rw [if_neg h1]
      by_cases h2 : a ∈ acc
      · rw [if_pos h2]; exact ih acc h
      · rw [if_neg h2]
        apply ih
        rw [List.nodup_append]
        refine ⟨h, List.nodup_singleton a, ?_⟩
        intro x hx hxa
        rw [List.mem_singleton] at hxa
        subst hxa
        exact h2 hx

theorem add_index_keys_mem (args : Arguments)
    (hfmt : args.format = OutputFormats.JEKYLL) (hmi : args.make_index = true)
    (keys : List String) (c : GDScriptClass) (p : String) :
    p ∈ add_index_keys args keys c
      ↔ p ∈ keys ∨ (p ∈ splitPath c.jekyll_path ∧ ¬(p = "" ∨ p = leaf_seg c)) := by
  unfold add_index_keys
  rw [if_pos ⟨hfmt, hmi⟩]
  exact addkeys_fold_mem (splitPath c.jekyll_path) _ keys p

theorem buildIndexKeys_go_mem (args : Arguments)
    (hfmt : args.format = OutputFormats.JEKYLL) (hmi : args.make_index = true) :
    ∀ (cs : List GDScriptClass) (acc : List String) (p : String),
      p ∈ cs.foldl (add_index_keys args) acc
        ↔ p ∈ acc ∨ ∃ c ∈ cs, p ∈ splitPath c.jekyll_path ∧
            ¬(p = "" ∨ p = leaf_seg c) := by
  intro cs
  induction cs with
  | nil => simp
  | cons c cs ih =>
    intro acc p
    simp only [List.foldl_cons]
    rw [ih, add_index_keys_mem args hfmt hmi]
    constructor
    · rintro ((h | h) | ⟨x, hx, h⟩)
      · exact Or.inl h
      · exact Or.inr ⟨c, List.mem_cons_self _ _, h⟩
      · exact Or.inr ⟨x, List.mem_cons_of_mem _ hx, h⟩
    · rintro (h | ⟨x, hx, h⟩)
      · exact Or.inl (Or.inl h)
      · rcases List.mem_cons.mp hx with h1 | h1
        · subst h1; exact Or.inl (Or.inr h)
        · exact Or.inr ⟨x, h1, h⟩

theorem buildIndexKeys_mem (classes : List GDScriptClass) (args : Arguments)
    (hfmt : args.format = OutputFormats.JEKYLL) (hmi : args.make_index = true)
    (p : String) :
    p ∈ buildIndexKeys classes args
      ↔ ∃ c ∈ classes, p ∈ splitPath c.jekyll_path ∧ ¬(p = "" ∨ p = leaf_seg c) := by
  unfold buildIndexKeys
  rw [buildIndexKeys_go_mem args hfmt hmi]
  simp

theorem buildIndexKeys_go_nodup (args : Arguments) :
    ∀ (cs : List GDScriptClass) (acc : List String), acc.Nodup →
      (cs.foldl (add_index_keys args) acc).Nodup := by
  intro cs
  induction cs with
  | nil => intro acc h; exact h
  | cons c cs ih =>
    intro acc h
    simp only [List.foldl_cons]
    apply ih
    unfold add_index_keys
    by_cases hc : args.format = OutputFormats.JEKYLL ∧ args.make_index = true
    · rw [if_pos hc]
      exact addkeys_fold_nodup _ _ acc h
    · rw [if_neg hc]
      exact h

theorem buildIndexKeys_nodup (classes : List GDScriptClass) (args : Arguments) :
    (buildIndexKeys classes args).Nodup :=
  buildIndexKeys_go_nodup args classes [] List.nodup_nil

/-- A class whose navigation path has the intermediate segment `main`. -/
def mainPathClass : GDScriptClass := ⟨"Foo", none, "", "", "/main/foo", [], [], [], [], []⟩

/-- A class whose navigation path has two ordinary intermediate segments. -/
def questClass : GDScriptClass :=
  ⟨"Quest", none, "", "", "/story/quests/quest", [], [], [], [], []⟩

/-- Claim C7, counterexample: `main` is a distinct intermediate segment of
the navigation path `/main/foo` (neither the root segment nor the leaf), yet
no section document is produced for it: the section loop skips the key
`main`, so the whole output holds only the class document. -/
theorem c7_counterexample :
    "main" ∈ splitPath mainPathClass.jekyll_path ∧
    "main" ≠ leaf_seg mainPathClass ∧ "main" ≠ "" ∧
    section_docs [mainPathClass] ⟨OutputFormats.JEKYLL, true⟩ = [] ∧
    convert_to_markdown [mainPathClass] ⟨OutputFormats.JEKYLL, true⟩ someInfo
      = some [⟨"Foo", [jekyll ["title: Foo", "permalink: /main/foo", "parent: Main"],
                       "## Description", "", ""]⟩] := by
  refine ⟨by decide, by decide, by decide, by decide, ?_⟩
  rfl

/-- Claim C7 (amended): navigation section documents exist only in the
Jekyll format with index generation requested; there is then exactly one
section document (the names are duplicate-free) per distinct path segment
that occurs in some class's navigation path and is neither empty, nor equal
(as a string) to that class's leaf segment, nor the reserved name `main`;
each such document carries only the front-matter block (title, permalink,
navigation order, has-children and has-toc flags) and no body. -/
theorem c7_section_documents (classes : List GDScriptClass) (args : Arguments) :
    (args.format = OutputFormats.JEKYLL → args.make_index = true →
      ((section_docs classes args).map MarkdownDocument.name).Nodup ∧
      (∀ p, (∃ d ∈ section_docs classes args, d.name = p) ↔
        ((∃ c ∈ classes, p ∈ splitPath c.jekyll_path ∧
            ¬(p = "" ∨ p = leaf_seg c)) ∧ p ≠ "main")) ∧
      (∀ d ∈ section_docs classes args,
        d.content = [jekyll ["title: " ++ pythonTitle d.name,
          "permalink: /" ++ d.name, "nav_order: 2",
          "has_children: true", "has_toc: true"]])) ∧
    (¬(args.format = OutputFormats.JEKYLL ∧ args.make_index = true) →
      section_docs classes args = []) := by
  constructor
  · intro hfmt hmi
    refine ⟨?_, ?_, ?_⟩
    · unfold section_docs
      rw [List.map_map]
      have hmapid : (MarkdownDocument.name ∘ section_doc) = id := by
        funext p
        rfl
      rw [hmapid, List.map_id]
      exact List.Nodup.filter _ (buildIndexKeys_nodup classes args)
    · intro p
      unfold section_docs
      constructor
      · rintro ⟨d, hd, hname⟩
        obtain ⟨q, hq, hdq⟩ := List.mem_map.mp hd
        have hqp : q = p := by rw [← hname, ← hdq]; rfl
        subst hqp
        have := List.mem_filter.mp hq
        have hk := (buildIndexKeys_mem classes args hfmt hmi q).mp this.1
        have hcond := of_decide_eq_true this.2
        exact ⟨hk, fun h => hcond (Or.inl h)⟩
      · rintro ⟨hk, hmain⟩
        have hne : p ≠ "" := by
          obtain ⟨c, _, _, hno⟩ := hk
          exact fun h => hno (Or.inl h)
        refine ⟨section_doc p, ?_, rfl⟩
        apply List.mem_map_of_mem
        apply List.mem_filter.mpr
        refine ⟨(buildIndexKeys_mem classes args hfmt hmi p).mpr hk, ?_⟩
        exact decide_eq_true (fun h => h.elim hmain hne)
    · intro d hd
      unfold section_docs at hd
      obtain ⟨q, hq, hdq⟩ := List.mem_map.mp hd
      rw [← hdq]
      rfl
  · intro h
    exact section_docs_not_jekyll classes args h

/-- Witness for C7 at a concrete two-segment path. -/
theorem c7_section_documents_witness :
    ((section_docs [questClass] ⟨OutputFormats.JEKYLL, true⟩).map
      MarkdownDocument.name).Nodup ∧
    section_docs [questClass] ⟨OutputFormats.MARDKOWN, true⟩ = [] :=
  ⟨((c7_section_documents [questClass] ⟨OutputFormats.JEKYLL, true⟩).1 rfl rfl).1,
   (c7_section_documents [questClass] ⟨OutputFormats.MARDKOWN, true⟩).2
     (by rintro ⟨hx, -⟩; exact OutputFormats.noConfusion hx)⟩

/-- Document names after a successful per-class conversion are the (possibly
renamed) class names, in order. -/
theorem mapM_as_markdown_names (classes : List GDScriptClass) (args : Arguments) :
    ∀ (cs : List GDScriptClass) (docs : List MarkdownDocument),
      cs.mapM (fun e => as_markdown classes e args) = some docs →
      docs.map MarkdownDocument.name = cs.map (fun c => (renameMain c).name) := by
  intro cs
  induction cs with
  | nil =>
    intro docs h
    simp only [List.mapM_nil, pure, Option.some.injEq] at h
    subst h
    rfl
  | cons c cs ih =>
    intro docs h
    rw [List.mapM_cons] at h
    simp only [bind, Option.bind_eq_some, pure, Option.some.injEq] at h
    obtain ⟨d, hd, ds, hds, hdocs⟩ := h
    subst hdocs
    simp only [List.map_cons]
    rw [ih ds hds]
    obtain ⟨_, _, _, _, _, _, _, _, _, _, hd2⟩ := as_markdown_eq hd
    rw [hd2]

/-- Claim C10: a successful conversion returns the flat-mode index document
first (exactly when produced), then one document per input class in input
order, each named by the class's (possibly renamed) name, then the
navigation section documents, and nothing else. -/
theorem c10_output_document_order (classes : List GDScriptClass) (args : Arguments)
    (info : ProjectInfo) (l : List MarkdownDocument)
    (h : convert_to_markdown classes args info = some l) :
    ∃ docs, classes.mapM (fun e => as_markdown classes e args) = some docs ∧
      docs.map MarkdownDocument.name = classes.map (fun c => (renameMain c).name) ∧
      l = (if args.make_index = true ∧ args.format ≠ OutputFormats.JEKYLL
            then [write_index_page classes info] else []) ++ docs ++
          section_docs classes args := by
  obtain ⟨docs, h1, h2⟩ := convert_eq h
  exact ⟨docs, h1, mapM_as_markdown_names classes args classes docs h1, h2⟩

/-- Witness for C10 at a concrete two-class run including a renamed `Main`. -/
theorem c10_output_document_order_witness :
    ∃ docs,
      ([mainClass, fooClass].mapM
        (fun e => as_markdown [mainClass, fooClass] e ⟨OutputFormats.MARDKOWN, false⟩))
        = some docs ∧
      docs.map MarkdownDocument.name
        = [mainClass, fooClass].map (fun c => (renameMain c).name) ∧
      ([⟨"Rakugo", ["# Rakugo", "", "## Description", "", ""]⟩,
        ⟨"Foo", ["# Foo", "", "## Description", "", ""]⟩] : List MarkdownDocument)
        = (if (⟨OutputFormats.MARDKOWN, false⟩ : Arguments).make_index = true ∧
              (⟨OutputFormats.MARDKOWN, false⟩ : Arguments).format ≠ OutputFormats.JEKYLL
            then [write_index_page [mainClass, fooClass] someInfo] else []) ++ docs ++
          section_docs [mainClass, fooClass] ⟨OutputFormats.MARDKOWN, false⟩ := by
  have h := c10_output_document_order [mainClass, fooClass]
    ⟨OutputFormats.MARDKOWN, false⟩ someInfo
    [⟨"Rakugo", ["# Rakugo", "", "## Description", "", ""]⟩,
     ⟨"Foo", ["# Foo", "", "## Description", "", ""]⟩] rfl
  obtain ⟨docs, h1, h2, h3⟩ := h
  exact ⟨docs, h1, h2, h3⟩
